import Mathlib

/-!
Shallow embedding of hyejun18/slack-paper-bot (Python) in Lean 4.

Modules embedded:
* `src/modules/slack_handler.py` — request verification (HMAC-SHA256),
  event deduplication, reaction/post retry loops, Block Kit formatting.
* `src/modules/summarizer.py` — prompt construction, truncation, caching,
  generation retry loop.
* `src/main.py` — the `/slack/events` webhook branch for `file_shared`
  events (thread-timestamp resolution, dedup recording, error handling).

Machine integers are `Nat` with explicit `% 2 ^ 32` where overflow matters;
byte strings are `List Nat` (each element `< 256`); Python text strings are
Lean `String` (whose logical model, `List Char`, matches Python's
code-point semantics for `len` and slicing).  Fallible code returns
`Except`/`Option`.  External library primitives used by the source
(`hashlib.sha256`, `hmac`, UTF-8 codec) are implemented concretely below
following their published specifications (FIPS 180-4, FIPS 198-1,
RFC 3629), since the Python code delegates to them byte-for-byte.
-/

namespace PaperBot

/-! ## SHA-256 (FIPS 180-4) over byte lists, `Nat` arithmetic mod `2 ^ 32` -/

/-- Word size modulus `2 ^ 32`. -/
def M32 : Nat := 4294967296

/-- Addition modulo `2 ^ 32`. -/
def add32 (a b : Nat) : Nat := (a + b) % M32

/-- Right rotation of a 32-bit word. -/
def rotr32 (n x : Nat) : Nat := ((x >>> n) ||| (x <<< (32 - n))) % M32

/-- `Ch(x,y,z)` from FIPS 180-4. -/
def ch32 (x y z : Nat) : Nat := (x &&& y) ^^^ ((x ^^^ 4294967295) &&& z)

/-- `Maj(x,y,z)` from FIPS 180-4. -/
def maj32 (x y z : Nat) : Nat := (x &&& y) ^^^ (x &&& z) ^^^ (y &&& z)

/-- Big Sigma-0. -/
def bsig0 (x : Nat) : Nat := rotr32 2 x ^^^ rotr32 13 x ^^^ rotr32 22 x

/-- Big Sigma-1. -/
def bsig1 (x : Nat) : Nat := rotr32 6 x ^^^ rotr32 11 x ^^^ rotr32 25 x

/-- Small sigma-0. -/
def ssig0 (x : Nat) : Nat := rotr32 7 x ^^^ rotr32 18 x ^^^ (x >>> 3)

/-- Small sigma-1. -/
def ssig1 (x : Nat) : Nat := rotr32 17 x ^^^ rotr32 19 x ^^^ (x >>> 10)

/-- The 64 SHA-256 round constants. -/
def sha256K : List Nat :=
  [1116352408, 1899447441, 3049323471, 3921009573, 961987163, 1508970993,
   2453635748, 2870763221, 3624381080, 310598401, 607225278, 1426881987,
   1925078388, 2162078206, 2614888103, 3248222580, 3835390401, 4022224774,
   264347078, 604807628, 770255983, 1249150122, 1555081692, 1996064986,
   2554220882, 2821834349, 2952996808, 3210313671, 3336571891, 3584528711,
   113926993, 338241895, 666307205, 773529912, 1294757372, 1396182291,
   1695183700, 1986661051, 2177026350, 2456956037, 2730485921, 2820302411,
   3259730800, 3345764771, 3516065817, 3600352804, 4094571909, 275423344,
   430227734, 506948616, 659060556, 883997877, 958139571, 1322822218,
   1537002063, 1747873779, 1955562222, 2024104815, 2227730452, 2361852424,
   2428436474, 2756734187, 3204031479, 3329325298]

/-- The eight SHA-256 initial hash values. -/
def sha256H0 : List Nat :=
  [1779033703, 3144134277, 1013904242, 2773480762, 1359893119, 2600822924, 528734635, 1541459225]

/-- Group a byte list into big-endian 32-bit words (four bytes per word). -/
def toWords32 : List Nat → List Nat
  | b0 :: b1 :: b2 :: b3 :: rest =>
      (b0 * 16777216 + b1 * 65536 + b2 * 256 + b3) :: toWords32 rest
  | _ => []

/-- One step of the message-schedule extension, on the reversed schedule
(the head is the most recent word). -/
def schedStep (wrev : List Nat) : List Nat :=
  (add32 (add32 (ssig1 (wrev.getD 1 0)) (wrev.getD 6 0))
    (add32 (ssig0 (wrev.getD 14 0)) (wrev.getD 15 0))) :: wrev

/-- Iterate a function `n` times. -/
def iterN (f : List Nat → List Nat) : Nat → List Nat → List Nat
  | 0, l => l
  | n + 1, l => iterN f n (f l)

/-- The 64-word message schedule of one block (given as 16 words). -/
def msgSched (w16 : List Nat) : List Nat :=
  (iterN schedStep 48 w16.reverse).reverse

/-- One SHA-256 round: state is the list `[a,b,c,d,e,f,g,h]`, `kw` is the
sum input `K_t + W_t` pair folded in. -/
def sha256Round (st : List Nat) (kw : Nat × Nat) : List Nat :=
  match st with
  | [a, b, c, d, e, f, g, h] =>
      let t1 := add32 (add32 (add32 h (bsig1 e)) (add32 (ch32 e f g) kw.1)) kw.2
      let t2 := add32 (bsig0 a) (maj32 a b c)
      [add32 t1 t2, a, b, c, add32 d t1, e, f, g]
  | other => other

/-- Compression of one 64-byte block into the running state. -/
def sha256Compress (st : List Nat) (block : List Nat) : List Nat :=
  let w := msgSched (toWords32 block)
  let st' := (sha256K.zip w).foldl sha256Round st
  List.zipWith add32 st st'

/-- Big-endian 8-byte encoding of a natural number (least 64 bits). -/
def u64be (n : Nat) : List Nat :=
  [(n >>> 56) % 256, (n >>> 48) % 256, (n >>> 40) % 256, (n >>> 32) % 256,
   (n >>> 24) % 256, (n >>> 16) % 256, (n >>> 8) % 256, n % 256]

/-- SHA-256 padding: append `0x80`, zeros to 56 mod 64, then the bit length. -/
def sha256Pad (msg : List Nat) : List Nat :=
  msg ++ 0x80 :: List.replicate ((120 - (msg.length + 1) % 64) % 64) 0 ++ u64be (msg.length * 8)

/-- Split a list into 64-byte chunks (`fuel` bounds the recursion). -/
def chunk64 : Nat → List Nat → List (List Nat)
  | 0, _ => []
  | _ + 1, [] => []
  | fuel + 1, l => l.take 64 :: chunk64 fuel (l.drop 64)

/-- Serialize the eight-word state to 32 digest bytes, big-endian. -/
def stateToBytes (st : List Nat) : List Nat :=
  st.foldr (fun w acc => (w >>> 24) % 256 :: (w >>> 16) % 256 :: (w >>> 8) % 256 :: w % 256 :: acc) []

/-- SHA-256 of a byte list, as 32 digest bytes. -/
def sha256 (msg : List Nat) : List Nat :=
  let padded := sha256Pad msg
  stateToBytes ((chunk64 padded.length padded).foldl sha256Compress sha256H0)

/-- ASCII code of a lowercase hexadecimal digit. -/
def hexDigitCode (n : Nat) : Nat := if n < 10 then 48 + n else 87 + n

/-- Lowercase hex encoding of a byte list, as ASCII bytes
(Python `hexdigest()` encoded to bytes). -/
def hexBytes (bs : List Nat) : List Nat :=
  bs.foldr (fun b acc => hexDigitCode (b / 16) :: hexDigitCode (b % 16) :: acc) []

/-- Lowercase hex encoding of a byte list, as a string. -/
def hexString (bs : List Nat) : String :=
  String.mk (bs.foldr (fun b acc => Char.ofNat (hexDigitCode (b / 16)) :: Char.ofNat (hexDigitCode (b % 16)) :: acc) [])

/-- HMAC-SHA256 (FIPS 198-1): 32-byte MAC of `msg` under `key`. -/
def hmacSha256 (key msg : List Nat) : List Nat :=
  let k0 := if key.length > 64 then sha256 key else key
  let k1 := k0 ++ List.replicate (64 - k0.length) 0
  let ipadKey := k1.map (fun b => b ^^^ 0x36)
  let opadKey := k1.map (fun b => b ^^^ 0x5c)
  sha256 (opadKey ++ sha256 (ipadKey ++ msg))

/-! ## UTF-8 codec (RFC 3629, strict — as Python's `str.decode("utf-8")` /
`str.encode("utf-8")`): code points are `Nat`s, byte strings are `List Nat`. -/

/-- Strict UTF-8 decoding of a byte list into code points.  `fuel` bounds the
recursion (callers pass the list length); rejects truncated sequences,
stray continuation bytes, overlong forms, surrogates and values above
`0x10FFFF`, exactly as Python's strict `"utf-8"` codec. -/
def utf8DecodeAux : Nat → List Nat → Option (List Nat)
  | _, [] => some []
  | 0, _ :: _ => none
  | fuel + 1, b :: rest =>
    if b < 0x80 then
      (utf8DecodeAux fuel rest).map (b :: ·)
    else if 0xC2 ≤ b ∧ b ≤ 0xDF then
      match rest with
      | b1 :: rest1 =>
        if 0x80 ≤ b1 ∧ b1 ≤ 0xBF then
          (utf8DecodeAux fuel rest1).map (((b - 0xC0) * 64 + (b1 - 0x80)) :: ·)
        else none
      | [] => none
    else if 0xE0 ≤ b ∧ b ≤ 0xEF then
      match rest with
      | b1 :: b2 :: rest2 =>
        let lo1 := if b = 0xE0 then 0xA0 else 0x80
        let hi1 := if b = 0xED then 0x9F else 0xBF
        if (lo1 ≤ b1 ∧ b1 ≤ hi1) ∧ (0x80 ≤ b2 ∧ b2 ≤ 0xBF) then
          (utf8DecodeAux fuel rest2).map
            (((b - 0xE0) * 4096 + (b1 - 0x80) * 64 + (b2 - 0x80)) :: ·)
        else none
      | _ => none
    else if 0xF0 ≤ b ∧ b ≤ 0xF4 then
      match rest with
      | b1 :: b2 :: b3 :: rest3 =>
        let lo1 := if b = 0xF0 then 0x90 else 0x80
        let hi1 := if b = 0xF4 then 0x8F else 0xBF
        if (lo1 ≤ b1 ∧ b1 ≤ hi1) ∧ (0x80 ≤ b2 ∧ b2 ≤ 0xBF) ∧ (0x80 ≤ b3 ∧ b3 ≤ 0xBF) then
          (utf8DecodeAux fuel rest3).map
            (((b - 0xF0) * 262144 + (b1 - 0x80) * 4096 + (b2 - 0x80) * 64 + (b3 - 0x80)) :: ·)
        else none
      | _ => none
    else none

/-- Strict UTF-8 decoding (Python `bytes.decode("utf-8")`): `none` models a
raised `UnicodeDecodeError`. -/
def utf8Decode (bs : List Nat) : Option (List Nat) := utf8DecodeAux bs.length bs

/-- UTF-8 encoding of one code point. -/
def utf8EncodeChar (c : Nat) : List Nat :=
  if c < 0x80 then [c]
  else if c < 0x800 then [0xC0 + c / 64, 0x80 + c % 64]
  else if c < 0x10000 then [0xE0 + c / 4096, 0x80 + c / 64 % 64, 0x80 + c % 64]
  else [0xF0 + c / 262144, 0x80 + c / 4096 % 64, 0x80 + c / 64 % 64, 0x80 + c % 64]

/-- UTF-8 encoding of a code-point list (Python `str.encode("utf-8")`). -/
def utf8EncodeCp (cps : List Nat) : List Nat :=
  cps.foldr (fun c acc => utf8EncodeChar c ++ acc) []

/-! ## Python helper semantics -/

/-- Python's default `str.strip()` / `int()` whitespace, on byte values
(ASCII range; the repository only meets ASCII here). -/
def pyIsSpaceByte (b : Nat) : Bool := b = 9 ∨ b = 10 ∨ b = 11 ∨ b = 12 ∨ b = 13 ∨ b = 32

/-- Whether a byte is an ASCII decimal digit. -/
def isDigitByte (b : Nat) : Bool := 48 ≤ b ∧ b ≤ 57

/-- Continue parsing an integer literal after its first digit: Python allows
a single underscore between digits (`int("1_2") = 12`, `int("1__2")` and
`int("1_")` raise). -/
def pyDigitsGo : List Nat → Nat → Option Nat
  | [], acc => some acc
  | 95 :: rest, acc =>
    match rest with
    | d :: rest1 => if isDigitByte d then pyDigitsGo rest1 (acc * 10 + (d - 48)) else none
    | [] => none
  | d :: rest, acc => if isDigitByte d then pyDigitsGo rest (acc * 10 + (d - 48)) else none

/-- Parse a nonempty digit run (first char must be a digit). -/
def pyDigits : List Nat → Option Nat
  | d :: rest => if isDigitByte d then pyDigitsGo rest (d - 48) else none
  | [] => none

/-- Python `int(s)` on the ASCII bytes of `s`: strips whitespace, allows one
sign character, then digits with single interior underscores; `none` models
a raised `ValueError`. -/
def pythonIntBytes (bs : List Nat) : Option Int :=
  let t := ((bs.dropWhile pyIsSpaceByte).reverse.dropWhile pyIsSpaceByte).reverse
  match t with
  | 43 :: rest => (pyDigits rest).map (fun n => (n : Int))
  | 45 :: rest => (pyDigits rest).map (fun n => -(n : Int))
  | rest => (pyDigits rest).map (fun n => (n : Int))

/-- Python's default `str.strip()` whitespace on characters. -/
def pyIsSpaceChar (c : Char) : Bool :=
  c = ' ' ∨ c = '\t' ∨ c = '\n' ∨ c = '\r' ∨ c.toNat = 11 ∨ c.toNat = 12

/-- Python `str.strip()` on a character list. -/
def pyStripList (l : List Char) : List Char :=
  ((l.dropWhile pyIsSpaceChar).reverse.dropWhile pyIsSpaceChar).reverse

/-- Python `str.strip()`. -/
def pyStrip (s : String) : String := ⟨pyStripList s.data⟩

/-- Python `s.split("\n\n")`: non-overlapping left-to-right splitting on the
two-character separator; the result is always nonempty. -/
def splitDNL : List Char → List (List Char)
  | '\n' :: '\n' :: rest => [] :: splitDNL rest
  | c :: rest =>
    match splitDNL rest with
    | h :: t => (c :: h) :: t
    | [] => [[c]]
  | [] => [[]]

/-- Python `text[:k]` for an `Int` bound `k` (a negative bound counts from
the end, clamped at zero). -/
def pySliceTo (s : String) (k : Int) : String :=
  if 0 ≤ k then ⟨s.data.take k.toNat⟩ else ⟨s.data.take (s.length - (-k).toNat)⟩

/-- The last `n` elements of a list (Python `list(s)[-n:]` for nonempty `s`). -/
def lastN (n : Nat) (l : List α) : List α := l.drop (l.length - n)

/-! ## `SlackHandler.verify_request` (`slack_handler.py` lines 55–88) -/

/-- The exception escaping `verify_request` on a body that is not valid
UTF-8 (the `body.decode("utf-8")` call sits outside the `try` block). -/
inductive DecodeFailure
  | unicodeDecodeError
deriving DecidableEq, Repr

/-- Re-encode the decoded body exactly as the f-string/`.encode()` round
trip does; only reached when decoding succeeded. -/
def utf8Reencode (body : List Nat) : List Nat :=
  match utf8Decode body with
  | some cps => utf8EncodeCp cps
  | none => []

/-- The bytes of `f"v0:{timestamp}:{body.decode('utf-8')}".encode()`:
`"v0:"` is `[118,48,58]` and `":"` is `[58]`; the timestamp header is ASCII
whenever `int()` accepted it, so its UTF-8 bytes are itself. -/
def sigBaseBytes (tsHeader body : List Nat) : List Nat :=
  [118, 48, 58] ++ tsHeader ++ [58] ++ utf8Reencode body

/-- The expected signature bytes: `"v0="` (`[118,48,61]`) followed by the
lowercase hex digest of the HMAC-SHA256 of the basestring under the
signing secret. -/
def expectedSignature (secret tsHeader body : List Nat) : List Nat :=
  [118, 48, 61] ++ hexBytes (hmacSha256 secret (sigBaseBytes tsHeader body))

/-- `SlackHandler.verify_request`.  `now` stands for `time.time()` in whole
seconds; headers and body are byte lists; `hmac.compare_digest` is
byte-list equality.  `Except.error` models the `UnicodeDecodeError` that
escapes the function (see claim C10). -/
def verifyRequest (secret : List Nat) (now : Int) (tsHeader body signature : List Nat) :
    Except DecodeFailure Bool :=
  match pythonIntBytes tsHeader with
  | none => .ok false
  | some ts =>
    if 300 < (now - ts).natAbs then .ok false
    else
      match utf8Decode body with
      | none => .error .unicodeDecodeError
      | some _ => .ok (signature == expectedSignature secret tsHeader body)

/-! ## `SlackHandler.should_process_event` (`slack_handler.py` lines 101–135) -/

/-- A Slack message event, restricted to the fields the handler reads. -/
structure MsgEvent where
  channel : Option String
  user : Option String
  clientMsgId : Option String
  eventTs : Option String

/-- Python `a or b` on optional strings (`None` and `""` are falsy). -/
def pyOrStr (a b : Option String) : Option String :=
  match a with
  | some s => if s = "" then b else some s
  | none => b

/-- `SlackHandler.should_process_event`: returns the decision and the
updated `_processed_events` set, modelled as an insertion-ordered
duplicate-free list (`_max_cache_size` is the literal 1000; the trim keeps
500 entries of `list(set)[-500:]`). -/
def shouldProcessEvent (channelIds : List String) (botUserId : String)
    (processed : List String) (ev : MsgEvent) : Bool × List String :=
  match ev.channel with
  | none => (false, processed)
  | some ch =>
    if ch ∉ channelIds then (false, processed)
    else if ev.user = some botUserId then (false, processed)
    else
      match pyOrStr ev.clientMsgId ev.eventTs with
      | some eid =>
        if eid = "" then (true, processed)
        else if eid ∈ processed then (false, processed)
        else
          let p1 := processed ++ [eid]
          (true, if p1.length > 1000 then lastN 500 p1 else p1)
      | none => (true, processed)

/-! ## `SlackHandler.add_reaction` and `SlackHandler.post_thread_reply`
(`slack_handler.py` lines 168–247) -/

/-- Outcome of one `chat_postMessage` / `reactions_add` call: success with a
response payload, or a `SlackApiError` whose `response["error"]` is `code`. -/
inductive ApiCall
  | ok (data : String)
  | apiErr (code : String)
deriving DecidableEq, Repr

/-- `SlackHandler.add_reaction`: `already_reacted` is swallowed and reported
as success; any other API error yields `False`. -/
def addReaction (outcome : ApiCall) : Bool :=
  match outcome with
  | .ok _ => true
  | .apiErr code => code == "already_reacted"

/-- The `SlackError` raised by `post_thread_reply`: immediately on a
permanent error code, or after exhausting all retries (carrying the last
underlying error). -/
inductive PostErr
  | cannotPost (code : String)
  | failedAfter (attempts : Nat) (last : Option String)
deriving DecidableEq, Repr

/-- The error codes `post_thread_reply` refuses to retry. -/
def isPermanentCode (code : String) : Bool :=
  code == "channel_not_found" || code == "not_in_channel"

/-- The retry loop of `post_thread_reply`: `api a` is the outcome of the
`a`-th `chat_postMessage` call (1-indexed); the second component collects
the `time.sleep(retry_delay * attempt)` durations. -/
def postGo (maxR delay : Nat) (api : Nat → ApiCall) :
    Nat → Nat → Option String → List Nat → Except PostErr String × List Nat
  | 0, _, last, sleeps => (.error (.failedAfter maxR last), sleeps)
  | r + 1, attempt, _last, sleeps =>
    match api attempt with
    | .ok data => (.ok data, sleeps)
    | .apiErr code =>
      if isPermanentCode code then (.error (.cannotPost code), sleeps)
      else if attempt < maxR then
        postGo maxR delay api r (attempt + 1) (some code) (sleeps ++ [delay * attempt])
      else
        postGo maxR delay api r (attempt + 1) (some code) sleeps

/-- `SlackHandler.post_thread_reply` (`for attempt in range(1, max_retries + 1)`). -/
def postThreadReply (maxR delay : Nat) (api : Nat → ApiCall) :
    Except PostErr String × List Nat :=
  postGo maxR delay api maxR 1 none []

/-! ## `SlackHandler.format_summary_blocks` (`slack_handler.py` lines 325–402) -/

/-- Block Kit blocks, restricted to the shapes the formatter emits. -/
inductive Block
  | header (text : String)
  | divider
  | sectionBlock (text : String)
  | context (text : String)
deriving DecidableEq, Repr

/-- The fixed disclaimer footer text. -/
def disclaimerText : String :=
  "_이 요약은 AI(Google Gemini)에 의해 자동 생성되었습니다. 정확성을 보장하지 않으므로 원문을 확인해주세요._"

/-- One step of the paragraph-accumulation loop: the state is the emitted
section blocks so far and `current_chunk`. -/
def chunkStep (st : List Block × List Char) (para : List Char) : List Block × List Char :=
  if st.2.length + para.length + 2 ≤ 2900 then
    (st.1, st.2 ++ para ++ ['\n', '\n'])
  else if st.2 ≠ [] then
    (st.1 ++ [.sectionBlock ⟨pyStripList st.2⟩], para ++ ['\n', '\n'])
  else
    (st.1, para ++ ['\n', '\n'])

/-- The header text: `f"논문 요약: {filename[:50]}{'...' if len(filename) > 50 else ''}"`. -/
def headerBlockText (filename : String) : String :=
  "논문 요약: " ++ String.mk (filename.data.take 50) ++
    (if filename.length > 50 then "..." else "")

/-- After the paragraph loop: emit the leftover `current_chunk` if nonempty. -/
def flushChunks (res : List Block × List Char) : List Block :=
  res.1 ++ (if res.2 ≠ [] then [Block.sectionBlock ⟨pyStripList res.2⟩] else [])

/-- The section blocks: one block when the summary fits in 2900
characters, otherwise the paragraph-accumulation loop over
`summary.split("\n\n")`. -/
def summaryMiddle (summary : String) : List Block :=
  if summary.length ≤ 2900 then [Block.sectionBlock summary]
  else flushChunks ((splitDNL summary.data).foldl chunkStep ([], []))

/-- `SlackHandler.format_summary_blocks`: header, divider, section blocks,
divider, fixed disclaimer context footer. -/
def formatSummaryBlocks (summary filename : String) : List Block :=
  [Block.header (headerBlockText filename), Block.divider] ++ summaryMiddle summary ++
    [Block.divider, Block.context disclaimerText]

/-! ## `PaperSummarizer` (`summarizer.py`) -/

/-- Everything before the interpolation slot in the source template for detail level `short` (`PROMPTS["short"]` in `summarizer.py`). -/
def promptPreShort : String :=
  "당신은 생물학 논문 요약 전문가입니다. 아래 논문 내용을 한글로 간결하게 요약해주세요.\n\n중요: Technical term (예: CRISPR-Cas9, phosphorylation, apoptosis, PCR, Western blot 등)은 반드시 영어 그대로 유지하세요.\n\n다음 형식으로 요약해주세요:\n\n:bar_chart: *논문 분석 결과*\n*[논문 원제목 - 영어 그대로]*\n\n:bulb: *한줄 핵심 (The Hook)*\n[이 논문의 핵심을 한 문장으로 요약]\n\n:dart: *추천 대상*\n[이 논문을 읽으면 좋을 대상 - 쉼표로 구분]\n\n*1. 연구 목적 (Problem & Goal)*\n• [연구 배경과 목적을 2-3개 bullet point로]\n\n*2. 주요 발견 (Key Results)*\n• [핵심 발견사항 3개 이내]\n\n`#Keyword1` `#Keyword2` `#Keyword3`\n\n---\n논문 내용:\n"

/-- Everything before the interpolation slot in the source template for detail level `normal` (`PROMPTS["normal"]` in `summarizer.py`). -/
def promptPreNormal : String :=
  "You are an expert biology paper summarizer. Summarize the paper below in Korean.\n\nCRITICAL RULES:\n1. Output MUST be in Korean, but keep ALL technical terms in English (e.g., CRISPR-Cas9, phosphorylation, apoptosis, PCR, Western blot, transfection, knockdown, RNA-seq)\n2. Gene names, protein names, compound names, cell line names MUST remain in English\n3. Statistics and p-values should be kept as-is\n4. Use Slack emoji format (e.g., :bulb:, :dart:, :bar_chart:)\n5. For bullet points with labels, make the label bold before colon (e.g., • *Method:* description here)\n6. Follow the EXACT output format below - do not add or remove sections\n\nOUTPUT FORMAT:\n\n:bar_chart: *논문 분석 결과*\n*[Original paper title in English]*\n\n:bulb: *한줄 핵심 (The Hook)*\n[One impactful sentence summarizing the key finding/contribution with specific numbers or achievements]\n\n:dart: *추천 대상*\n[Target audience - 3-5 researcher/expert types, comma-separated]\n\n───────────────────────\n*1. 연구 목적 (Problem & Goal)*\n• *기존 한계:* [Previous limitations or problems]\n• *연구 목표:* [Specific goals and approach of this study]\n\n───────────────────────\n*2. 핵심 방법론 (Method & Tech Stack)*\n• *실험/분석 방법:* [Main experimental/analysis methods]\n• *사용 기술:* [Technologies, models, tools used]\n• *실험 설계:* [Key experimental design]\n\n───────────────────────\n*3. 주요 발견 (Key Results)*\n• [Most important finding 1 - include specific numbers]\n• [Important finding 2]\n• [Important finding 3]\n• [Experimental validation or statistical significance]\n\n───────────────────────\n*4. 한계 및 비판 (Critical View)*\n• *한계점:* [Limitations of the study]\n• *개선 방향:* [Potential improvements]\n• *추가 연구:* [Areas needing further research]\n\n───────────────────────\n`#Keyword1` `#Keyword2` `#Keyword3` `#Keyword4` `#Keyword5`\n\n---\nPaper content:\n"

/-- Everything before the interpolation slot in the source template for detail level `detailed` (`PROMPTS["detailed"]` in `summarizer.py`). -/
def promptPreDetailed : String :=
  "당신은 생물학 논문 요약 전문가입니다. 아래 논문 내용을 한글로 상세하게 요약해주세요.\n\n중요 규칙:\n1. Technical term은 반드시 영어 그대로 유지 (예: CRISPR-Cas9, phosphorylation, apoptosis, PCR, Western blot, transfection, siRNA, shRNA, qRT-PCR, ChIP-seq, RNA-seq 등)\n2. 유전자명, 단백질명, 화합물명, 세포주명은 영어로 유지\n3. 통계 수치와 p-value는 그대로 표기\n4. 일반적인 설명은 자연스러운 한글로 작성\n5. 이모지는 Slack 형식 사용\n\n다음 형식으로 상세히 요약해주세요:\n\n:bar_chart: *논문 분석 결과*\n*[논문 원제목 - 영어 그대로]*\n_[저자 정보 및 소속기관]_\n\n:bulb: *한줄 핵심 (The Hook)*\n[이 논문의 핵심 발견/기여를 임팩트 있는 한 문장으로 요약]\n\n:dart: *추천 대상*\n[이 논문을 읽으면 좋을 연구자/전문가 유형]\n\n*1. 연구 목적 (Problem & Goal)*\n• [연구의 학문적 배경]\n• [기존 연구의 한계점]\n• [본 연구의 구체적인 목표와 가설]\n\n*2. 핵심 방법론 (Method & Tech Stack)*\n• [실험 모델 (세포주, 동물 모델 등)]\n• [주요 분자생물학적 기법]\n• [분석 방법 및 통계]\n• [사용된 도구/소프트웨어]\n\n*3. 주요 발견 (Key Results)*\n• [Figure별 또는 실험별 주요 결과]\n• [통계적 유의성과 함께 구체적 수치 포함]\n• [대조군 대비 실험군의 차이]\n\n*4. 한계 및 비판 (Critical View)*\n• [연구 설계의 한계]\n• [결과 해석의 주의점]\n• [일반화의 제한]\n• [향후 연구 방향]\n\n*5. 의의 및 응용 (Implications)*\n• [학문적 기여]\n• [실용적 응용 가능성]\n• [후속 연구 방향]\n\n`#Keyword1` `#Keyword2` `#Keyword3` `#Keyword4` `#Keyword5` `#Keyword6`\n\n---\n논문 내용:\n"

/-- `PROMPTS.get(detail_level, PROMPTS["normal"])`, split at the
interpolation slot: the part before `{text}`. -/
def promptPre (d : String) : String :=
  if d = "short" then promptPreShort
  else if d = "detailed" then promptPreDetailed
  else promptPreNormal

/-- The part of the selected template after `{text}` (a single newline in
all three templates). -/
def promptSuf (_d : String) : String := "\n"

/-- `len(prompt_template)` of the selected template, `{text}` included. -/
def templateLen (d : String) : Nat := (promptPre d).length + 6 + (promptSuf d).length

/-- `prompt_template.format(text=text)`. -/
def builtPrompt (d : String) (text : String) : String :=
  promptPre d ++ text ++ promptSuf d

/-- The prompt actually sent: `summarizer.py` lines 263–272.  When the
interpolated prompt exceeds `max_chars = 900000`, the text is re-sliced to
`max_chars - len(prompt_template)` and re-interpolated. -/
def sentPrompt (d : String) (text : String) : String :=
  if (builtPrompt d text).length > 900000 then
    builtPrompt d (pySliceTo text ((900000 : Int) - (templateLen d : Int)))
  else builtPrompt d text

/-- `hashlib.sha256(text.encode()).hexdigest()`. -/
def textHash (text : String) : String :=
  hexString (sha256 (utf8EncodeCp (text.data.map Char.toNat)))

/-- Outcome of one `model.generate_content` call: a raised exception, or a
response whose `.text` is given (the empty string models a falsy
`response.text`). -/
inductive GenAttempt
  | raiseE (msg : String)
  | resp (text : String)
deriving DecidableEq, Repr

/-- The `SummaryError` raised after exhausting all retries, carrying the
last underlying error message. -/
inductive SummaryError
  | failedAfter (attempts : Nat) (last : Option String)
deriving DecidableEq, Repr

/-- The summarizer's mutable configuration and cache.  The on-disk JSON
cache is modelled as an association list keyed by `(hash, detail_level)`
(the file `{hash}_{detail_level}.json`); a prepended entry models a
rewritten file. -/
structure SummState where
  detailLevel : String
  maxRetries : Nat
  retryDelay : Nat
  cacheEnabled : Bool
  cache : List ((String × String) × String)

/-- First-match association-list lookup (a fresh write shadows older ones). -/
def cacheLookup (cache : List ((String × String) × String)) (k : String × String) :
    Option String :=
  (cache.find? (fun p => decide (p.1 = k))).map (·.2)

/-- `PaperSummarizer._load_from_cache`. -/
def loadFromCache (st : SummState) (h : String) : Option String :=
  if st.cacheEnabled then cacheLookup st.cache (h, st.detailLevel) else none

/-- `PaperSummarizer._save_to_cache`. -/
def saveToCache (st : SummState) (h : String) (summary : String) : SummState :=
  if st.cacheEnabled then { st with cache := ((h, st.detailLevel), summary) :: st.cache }
  else st

/-- The generation retry loop of `summarize` (lines 274–303).  `api a p` is
the outcome of the `a`-th `generate_content(p)` call (1-indexed).  Returns
the result, the state after any cache save, the number of API calls made,
and the `time.sleep(retry_delay * attempt)` durations. -/
def genGo (st : SummState) (h : String) (prompt : String) (api : Nat → String → GenAttempt) :
    Nat → Nat → Option String → Nat → List Nat →
      Except SummaryError String × SummState × Nat × List Nat
  | 0, _, lastE, calls, sleeps => (.error (.failedAfter st.maxRetries lastE), st, calls, sleeps)
  | r + 1, attempt, _lastE, calls, sleeps =>
    match api attempt prompt with
    | .resp t =>
      if t = "" then
        let last1 := some "Empty response from Gemini"
        if attempt < st.maxRetries then
          genGo st h prompt api r (attempt + 1) last1 (calls + 1)
            (sleeps ++ [st.retryDelay * attempt])
        else genGo st h prompt api r (attempt + 1) last1 (calls + 1) sleeps
      else
        let s := pyStrip t
        (.ok s, saveToCache st h s, calls + 1, sleeps)
    | .raiseE m =>
      let last1 := some m
      if attempt < st.maxRetries then
        genGo st h prompt api r (attempt + 1) last1 (calls + 1)
          (sleeps ++ [st.retryDelay * attempt])
      else genGo st h prompt api r (attempt + 1) last1 (calls + 1) sleeps

/-- The cache-miss path of `summarize`: build the prompt, truncate if
needed, and run the retry loop. -/
def summarizeGen (st : SummState) (h : String) (text : String)
    (api : Nat → String → GenAttempt) :
    Except SummaryError String × SummState × Nat × List Nat :=
  genGo st h (sentPrompt st.detailLevel text) api st.maxRetries 1 none 0 []

/-- `PaperSummarizer.summarize` (lines 244–303): hash, cache probe
(`if cached:` — `None` and `""` are both cache misses), then generation. -/
def summarize (st : SummState) (text : String) (api : Nat → String → GenAttempt) :
    Except SummaryError String × SummState × Nat × List Nat :=
  match loadFromCache st (textHash text) with
  | some c => if c = "" then summarizeGen st (textHash text) text api else (.ok c, st, 0, [])
  | none => summarizeGen st (textHash text) text api

/-! ## `/slack/events` `file_shared` branch (`main.py` lines 273–328) -/

/-- One entry of a `shares` list for a channel (only `ts` is read). -/
structure ShareEntry where
  ts : Option String
deriving DecidableEq, Repr

/-- The `shares` field of the file metadata: channel-indexed share lists
for public and for private channels. -/
structure FileShares where
  pub : List (String × List ShareEntry)
  priv : List (String × List ShareEntry)

/-- The file metadata returned by `files_info`, restricted to the fields
the handler reads. -/
structure FileData where
  filetype : Option String
  name : Option String
  urlPrivate : Option String
  shares : FileShares

/-- `dict.get(channel)` on a channel-indexed share table. -/
def sharesGet (table : List (String × List ShareEntry)) (channel : String) :
    Option (List ShareEntry) :=
  (table.find? (fun p => p.1 == channel)).map (·.2)

/-- Python truthiness of an optional share list (`None` and `[]` are falsy). -/
def listTruthy : Option (List ShareEntry) → Bool
  | some (_ :: _) => true
  | _ => false

/-- Python `a or b` on optional share lists. -/
def pyOrShares (a b : Option (List ShareEntry)) : Option (List ShareEntry) :=
  if listTruthy a then a else b

/-- Lines 297–300: `channel_shares = shares.get("public", {}).get(channel)
or shares.get("private", {}).get(channel)`, then
`channel_shares[0].get("ts") if channel_shares else event.get("event_ts")`. -/
def resolveThreadTs (fd : FileData) (channel : String) (eventTs : Option String) :
    Option String :=
  match pyOrShares (sharesGet fd.shares.pub channel) (sharesGet fd.shares.priv channel) with
  | some (e :: _) => e.ts
  | _ => eventTs

/-- Python `str.lower()` (ASCII case fold suffices here). -/
def pyLower (s : String) : String := ⟨s.data.map Char.toLower⟩

/-- Line 292: `file_data.get("filetype") == "pdf" or
file_data.get("name", "").lower().endswith(".pdf")`. -/
def isPdfFile (fd : FileData) : Bool :=
  fd.filetype == some "pdf" ||
    List.isSuffixOf ".pdf".data (pyLower (fd.name.getD "")).data

/-- A queued `process_pdf_async` background task. -/
structure QueuedTask where
  channel : String
  threadTs : Option String
  pdfUrl : Option String
  filename : String
  statusTs : Option String
deriving DecidableEq, Repr

/-- What the webhook branch produces: the HTTP status, the
`_processed_events` set afterwards, and the queued background tasks. -/
structure WebhookResult where
  status : Nat
  processed : List String
  queued : List QueuedTask
deriving DecidableEq, Repr

/-- The `file_shared` branch of `slack_events` (`main.py` lines 273–328).
`filesInfoRes` is the outcome of the `files_info` call; `laterRaises`
models an exception from a step after it inside the same `try` (reaction,
status post, task add).  Every exception inside the `try` is caught and
the branch still answers 200; the `file_id` is recorded *before* the
`try`. -/
def fileSharedBranch (channelIds : List String) (processed : List String)
    (fileId : String) (channel : Option String) (eventTs : Option String)
    (filesInfoRes : Except String FileData) (laterRaises : Bool)
    (statusTs : Option String) : WebhookResult :=
  match channel with
  | none => ⟨200, processed, []⟩
  | some ch =>
    if ch ∉ channelIds then ⟨200, processed, []⟩
    else if fileId ∈ processed then ⟨200, processed, []⟩
    else
      let processed1 := processed ++ [fileId]
      match filesInfoRes with
      | .error _ => ⟨200, processed1, []⟩
      | .ok fd =>
        if isPdfFile fd then
          if laterRaises then ⟨200, processed1, []⟩
          else
            ⟨200, processed1,
              [⟨ch, resolveThreadTs fd ch eventTs, fd.urlPrivate,
                fd.name.getD "unknown.pdf", statusTs⟩]⟩
        else ⟨200, processed1, []⟩

/-! ## Auxiliary observers and concrete inputs used by the verification -/

/-- Whether one generation attempt falls into the retry path: a raised
exception, or a falsy `response.text`. -/
def genFails : GenAttempt → Bool
  | .raiseE _ => true
  | .resp t => t == ""

/-- The `last_error` recorded for a failing generation attempt. -/
def genFailMsg : GenAttempt → String
  | .raiseE m => m
  | .resp _ => "Empty response from Gemini"

/-- Whether one `chat_postMessage` outcome is an API error that
`post_thread_reply` retries. -/
def isTransientCall : ApiCall → Bool
  | .ok _ => false
  | .apiErr code => !isPermanentCode code

/-- Whether one `chat_postMessage` outcome is an API error that
`post_thread_reply` refuses to retry. -/
def isPermanentCall : ApiCall → Bool
  | .ok _ => false
  | .apiErr code => isPermanentCode code

/-- The error code of an `ApiCall` (empty for a success). -/
def callCode : ApiCall → String
  | .ok _ => ""
  | .apiErr code => code

/-- A summary that is one single paragraph (no `"\n\n"` anywhere) of 3001
characters. -/
def bigParagraph : String := String.mk (List.replicate 3001 'a')

/-- 1001 pairwise distinct event identifiers (`"a"`, `"aa"`, `"aaa"`, …). -/
def manyIds : List String := (List.range 1001).map (fun n => String.mk (List.replicate (n + 1) 'a'))

/-- Deliver one `file_shared` event per identifier to the webhook branch
(monitored channel `"C"`, `files_info` raising each time) and keep the
resulting `_processed_events` set. -/
def webhookProcessedAfter (ids : List String) : List String :=
  ids.foldl
    (fun st fid => (fileSharedBranch ["C"] st fid (some "C") none (.error "api down") false none).processed)
    []

/-! ## Supporting lemmas -/

theorem string_length_eq_data (s : String) : s.length = s.data.length := rfl

theorem splitDNL_replicate_a : ∀ n, splitDNL (List.replicate n 'a') = [List.replicate n 'a'] := by
  intro n
  induction n with
  | zero => simp [splitDNL]
  | succ m ih => simp [splitDNL, List.replicate_succ, ih]

theorem pyStripList_a_newlines (n : Nat) (hn : 0 < n) :
    pyStripList (List.replicate n 'a' ++ ['\n', '\n']) = List.replicate n 'a' := by
  obtain ⟨m, rfl⟩ : ∃ m, n = m + 1 := ⟨n - 1, by omega⟩
  have h1 : List.dropWhile pyIsSpaceChar (List.replicate (m + 1) 'a' ++ ['\n', '\n']) =
      List.replicate (m + 1) 'a' ++ ['\n', '\n'] := by
    rw [List.replicate_succ, List.cons_append, List.dropWhile_cons, if_neg (by decide),
      ← List.cons_append, ← List.replicate_succ]
  have h2 : (List.replicate (m + 1) 'a' ++ ['\n', '\n']).reverse =
      '\n' :: '\n' :: List.replicate (m + 1) 'a' := by
    rw [List.reverse_append, List.reverse_replicate]
    rfl
  have h3 : List.dropWhile pyIsSpaceChar (List.replicate (m + 1) 'a') =
      List.replicate (m + 1) 'a' := by
    rw [List.replicate_succ, List.dropWhile_cons, if_neg (by decide), ← List.replicate_succ]
  rw [pyStripList, h1, h2, List.dropWhile_cons, if_pos (by decide), List.dropWhile_cons,
    if_pos (by decide), h3, List.reverse_replicate]

theorem fileShared_fresh_step (st : List String) (fid : String) (h : fid ∉ st) :
    (fileSharedBranch ["C"] st fid (some "C") none (.error "api down") false none).processed =
      st ++ [fid] := by
  simp [fileSharedBranch, h]

theorem webhookFold_length : ∀ (ids st : List String), ids.Nodup → (∀ i ∈ ids, i ∉ st) →
    ((ids.foldl
        (fun s fid =>
          (fileSharedBranch ["C"] s fid (some "C") none (.error "api down") false none).processed)
        st).length = st.length + ids.length) := by
  intro ids
  induction ids with
  | nil => simp
  | cons fid rest ih =>
    intro st hnd hfresh
    have hmem : fid ∉ st := hfresh fid (by simp)
    have hstep := fileShared_fresh_step st fid hmem
    rw [List.foldl_cons, hstep, ih (st ++ [fid]) hnd.of_cons]
    · simp
      omega
    · intro i hi
      simp only [List.mem_append, List.mem_singleton]
      rintro (h1 | rfl)
      · exact hfresh i (by simp [hi]) h1
      · exact (List.nodup_cons.mp hnd).1 hi

theorem manyIds_nodup : manyIds.Nodup := by
  refine List.Nodup.map ?_ (List.nodup_range 1001)
  intro a b h
  have hrep : List.replicate (a + 1) 'a' = List.replicate (b + 1) 'a' := congrArg String.data h
  have h2 := congrArg List.length hrep
  simp only [List.length_replicate] at h2
  omega

theorem range_map_mul_shift (delay a r : Nat) :
    (List.range (r + 1)).map (fun k => delay * (a + k)) =
      delay * a :: (List.range r).map (fun k => delay * (a + 1 + k)) := by
  rw [List.range_succ_eq_map, List.map_cons, List.map_map]
  simp only [Nat.add_zero]
  congr 1
  refine List.map_congr_left (fun k _ => ?_)
  simp only [Function.comp_apply]
  congr 1
  omega

theorem postGo_all_transient (maxR delay : Nat) (api : Nat → ApiCall) :
    ∀ (r attempt : Nat) (lastE : Option String) (sleeps : List Nat),
      attempt + r = maxR + 1 → 1 ≤ attempt → attempt ≤ maxR →
      (∀ i, attempt ≤ i → i ≤ maxR → isTransientCall (api i) = true) →
      postGo maxR delay api r attempt lastE sleeps =
        (.error (.failedAfter maxR (some (callCode (api maxR)))),
          sleeps ++ (List.range (r - 1)).map (fun k => delay * (attempt + k))) := by
  intro r
  induction r with
  | zero => intro attempt lastE sleeps hsum h1 hle _; omega
  | succ r ih =>
    intro attempt lastE sleeps hsum h1 hle htrans
    have htr := htrans attempt le_rfl hle
    cases hapi : api attempt with
    | ok d => rw [hapi] at htr; simp [isTransientCall] at htr
    | apiErr c =>
      rw [hapi] at htr
      have hperm : isPermanentCode c = false := by
        simpa [isTransientCall] using htr
      simp only [postGo, hapi, hperm, Bool.false_eq_true, if_false]
      by_cases hlt : attempt < maxR
      · rw [if_pos hlt]
        rw [ih (attempt + 1) (some c) (sleeps ++ [delay * attempt]) (by omega) (by omega)
          (by omega) (fun i hi1 hi2 => htrans i (by omega) hi2)]
        have hr : r + 1 - 1 = (r - 1) + 1 := by omega
        rw [hr, range_map_mul_shift, List.append_assoc]
        rfl
      · have hatt : attempt = maxR := by omega
        have hr0 : r = 0 := by omega
        subst hr0
        rw [if_neg hlt]
        simp only [postGo]
        subst hatt
        rw [hapi]
        simp [callCode]

theorem postGo_permanent (maxR delay : Nat) (api : Nat → ApiCall) :
    ∀ (r attempt : Nat) (lastE : Option String) (sleeps : List Nat) (a : Nat),
      attempt + r = maxR + 1 → 1 ≤ attempt → attempt ≤ a → a ≤ maxR →
      (∀ i, attempt ≤ i → i < a → isTransientCall (api i) = true) →
      isPermanentCall (api a) = true →
      postGo maxR delay api r attempt lastE sleeps =
        (.error (.cannotPost (callCode (api a))),
          sleeps ++ (List.range (a - attempt)).map (fun k => delay * (attempt + k))) := by
  intro r
  induction r with
  | zero => intro attempt lastE sleeps a hsum h1 hle hm _ _; omega
  | succ r ih =>
    intro attempt lastE sleeps a hsum h1 hle hm htrans hperm
    by_cases heq : attempt = a
    · subst heq
      cases hapi : api attempt with
      | ok d => rw [hapi] at hperm; simp [isPermanentCall] at hperm
      | apiErr c =>
        rw [hapi] at hperm
        have hp : isPermanentCode c = true := by simpa [isPermanentCall] using hperm
        simp only [postGo, hapi, hp, if_true]
        simp [callCode]
    · have hlt2 : attempt < a := by omega
      have htr := htrans attempt le_rfl hlt2
      cases hapi : api attempt with
      | ok d => rw [hapi] at htr; simp [isTransientCall] at htr
      | apiErr c =>
        rw [hapi] at htr
        have hpc : isPermanentCode c = false := by simpa [isTransientCall] using htr
        simp only [postGo, hapi, hpc, Bool.false_eq_true, if_false]
        rw [if_pos (by omega)]
        rw [ih (attempt + 1) (some c) (sleeps ++ [delay * attempt]) a (by omega) (by omega)
          (by omega) hm (fun i hi1 hi2 => htrans i (by omega) hi2) hperm]
        have hd : a - attempt = (a - (attempt + 1)) + 1 := by omega
        rw [hd, range_map_mul_shift, List.append_assoc]
        rfl

theorem genGo_all_fail (st : SummState) (h prompt : String) (api : Nat → String → GenAttempt) :
    ∀ (r attempt : Nat) (lastE : Option String) (calls : Nat) (sleeps : List Nat),
      attempt + r = st.maxRetries + 1 → 1 ≤ attempt → attempt ≤ st.maxRetries →
      (∀ i, attempt ≤ i → i ≤ st.maxRetries → genFails (api i prompt) = true) →
      genGo st h prompt api r attempt lastE calls sleeps =
        (.error (.failedAfter st.maxRetries (some (genFailMsg (api st.maxRetries prompt)))),
          st, calls + r,
          sleeps ++ (List.range (r - 1)).map (fun k => st.retryDelay * (attempt + k))) := by
  intro r
  induction r with
  | zero => intro attempt lastE calls sleeps hsum h1 hle _; omega
  | succ r ih =>
    intro attempt lastE calls sleeps hsum h1 hle hfail
    have hf := hfail attempt le_rfl hle
    by_cases hlast : attempt < st.maxRetries
    · cases hapi : api attempt prompt with
      | resp t =>
        rw [hapi] at hf
        have ht : t = "" := by simpa [genFails] using hf
        subst ht
        simp only [genGo, hapi, if_pos rfl, if_pos hlast]
        rw [ih (attempt + 1) (some "Empty response from Gemini") (calls + 1)
          (sleeps ++ [st.retryDelay * attempt]) (by omega) (by omega) (by omega)
          (fun i hi1 hi2 => hfail i (by omega) hi2)]
        have hr : r + 1 - 1 = (r - 1) + 1 := by omega
        rw [hr, range_map_mul_shift, List.append_assoc]
        have hc : calls + 1 + r = calls + (r + 1) := by omega
        rw [hc]
        rfl
      | raiseE m =>
        simp only [genGo, hapi, if_pos hlast]
        rw [ih (attempt + 1) (some m) (calls + 1) (sleeps ++ [st.retryDelay * attempt])
          (by omega) (by omega) (by omega) (fun i hi1 hi2 => hfail i (by omega) hi2)]
        have hr : r + 1 - 1 = (r - 1) + 1 := by omega
        rw [hr, range_map_mul_shift, List.append_assoc]
        have hc : calls + 1 + r = calls + (r + 1) := by omega
        rw [hc]
        rfl
    · have hatt : attempt = st.maxRetries := by omega
      have hr0 : r = 0 := by omega
      subst hr0
      cases hapi : api attempt prompt with
      | resp t =>
        rw [hapi] at hf
        have ht : t = "" := by simpa [genFails] using hf
        subst ht
        simp only [genGo, hapi, if_pos rfl, if_neg hlast]
        subst hatt
        rw [hapi]
        simp [genFailMsg]
      | raiseE m =>
        simp only [genGo, hapi, if_neg hlast]
        subst hatt
        rw [hapi]
        simp [genFailMsg]

theorem genGo_ok (st : SummState) (h prompt : String) (api : Nat → String → GenAttempt) :
    ∀ (r attempt : Nat) (lastE : Option String) (calls : Nat) (sleeps : List Nat)
      (s : String) (st1 : SummState) (c1 : Nat) (sl1 : List Nat),
      genGo st h prompt api r attempt lastE calls sleeps = (.ok s, st1, c1, sl1) →
      st1 = saveToCache st h s ∧
        ∃ i t, attempt ≤ i ∧ i < attempt + r ∧ api i prompt = .resp t ∧ t ≠ "" ∧
          s = pyStrip t := by
  intro r
  induction r with
  | zero =>
    intro attempt lastE calls sleeps s st1 c1 sl1 hgo
    simp only [genGo] at hgo
    simp at hgo
  | succ r ih =>
    intro attempt lastE calls sleeps s st1 c1 sl1 hgo
    cases hapi : api attempt prompt with
    | resp t =>
      by_cases ht : t = ""
      · subst ht
        simp only [genGo, hapi, if_pos rfl] at hgo
        by_cases hlast : attempt < st.maxRetries
        · rw [if_pos hlast] at hgo
          obtain ⟨hst, i, t, hi1, hi2, hresp, hne, hs⟩ := ih _ _ _ _ _ _ _ _ hgo
          exact ⟨hst, i, t, by omega, by omega, hresp, hne, hs⟩
        · rw [if_neg hlast] at hgo
          obtain ⟨hst, i, t, hi1, hi2, hresp, hne, hs⟩ := ih _ _ _ _ _ _ _ _ hgo
          exact ⟨hst, i, t, by omega, by omega, hresp, hne, hs⟩
      · simp only [genGo, hapi, if_neg ht] at hgo
        simp only [Prod.mk.injEq, Except.ok.injEq] at hgo
        obtain ⟨hs, hst, hc, hsl⟩ := hgo
        subst hs
        exact ⟨hst.symm, attempt, t, le_rfl, by omega, hapi, ht, rfl⟩
    | raiseE m =>
      simp only [genGo, hapi] at hgo
      by_cases hlast : attempt < st.maxRetries
      · rw [if_pos hlast] at hgo
        obtain ⟨hst, i, t, hi1, hi2, hresp, hne, hs⟩ := ih _ _ _ _ _ _ _ _ hgo
        exact ⟨hst, i, t, by omega, by omega, hresp, hne, hs⟩
      · rw [if_neg hlast] at hgo
        obtain ⟨hst, i, t, hi1, hi2, hresp, hne, hs⟩ := ih _ _ _ _ _ _ _ _ hgo
        exact ⟨hst, i, t, by omega, by omega, hresp, hne, hs⟩

/-! ## Claim theorems -/

/-- C2: the claim says every section block emitted by
`format_summary_blocks` has at most 2900 characters, by construction, for
all inputs — including a single-paragraph summary longer than 2900
characters.  The code refutes it: on a single 3001-character paragraph the
accumulation loop never emits before the end and the final flush emits the
whole paragraph as one section block of 3001 characters (also above
Slack's hard 3000-character limit), while the surrounding block order is
as described. -/
theorem C2_section_block_overflows :
    formatSummaryBlocks bigParagraph "paper.pdf" =
      [Block.header ("논문 요약: paper.pdf"), Block.divider,
        Block.sectionBlock bigParagraph, Block.divider, Block.context disclaimerText] ∧
      2900 < bigParagraph.length := by
  have hdata : bigParagraph.data = List.replicate 3001 'a' := rfl
  have hlen : bigParagraph.length = 3001 := by
    rw [string_length_eq_data, hdata, List.length_replicate]
  refine ⟨?_, by rw [hlen]; omega⟩
  have hchunk : chunkStep ([], []) (List.replicate 3001 'a') =
      ([], List.replicate 3001 'a' ++ ['\n', '\n']) := by
    unfold chunkStep
    dsimp only
    rw [if_neg (by simp only [List.length_nil, List.length_replicate]; omega),
      if_neg (by simp only [ne_eq, not_not])]
  have hflush : flushChunks ([], List.replicate 3001 'a' ++ ['\n', '\n']) =
      [Block.sectionBlock bigParagraph] := by
    unfold flushChunks
    dsimp only
    have hne : (List.replicate 3001 'a' ++ ['\n', '\n'] : List Char) ≠ [] := by
      intro h
      have h2 := congrArg List.length h
      simp only [List.length_append, List.length_replicate, List.length_nil] at h2
      omega
    rw [if_pos (by simp only [ne_eq]; exact fun h => hne h),
      pyStripList_a_newlines 3001 (by omega)]
    rfl
  have hheader : headerBlockText "paper.pdf" = "논문 요약: paper.pdf" := by decide
  rw [formatSummaryBlocks, summaryMiddle, hlen, if_neg (by omega), hdata,
    splitDNL_replicate_a, List.foldl_cons, List.foldl_nil, hchunk, hflush, hheader]
  rfl

set_option maxRecDepth 8192 in
/-- C3: the claim says the deduplication set never exceeds 1000 entries on
any path that records an identifier, including the `file_shared` webhook
path.  The code refutes it: the webhook path (`main.py` lines 281–285)
adds `file_id` without ever trimming, so 1001 distinct `file_shared`
deliveries leave `_processed_events` with 1001 entries.  (Only
`should_process_event` trims; see `shouldProcessEvent_bounded`.) -/
theorem C3_webhook_dedup_unbounded :
    1000 < (webhookProcessedAfter manyIds).length ∧
      (webhookProcessedAfter manyIds).length = 1001 := by
  have h := webhookFold_length manyIds [] manyIds_nodup (by simp)
  have hlen : manyIds.length = 1001 := by
    rw [manyIds, List.length_map, List.length_range]
  have h2 : (webhookProcessedAfter manyIds).length = 1001 := by
    rw [webhookProcessedAfter, h, List.length_nil, Nat.zero_add, hlen]
  refine ⟨?_, h2⟩
  rw [h2]
  omega

/-- The `should_process_event` path, by contrast, trims: its updated set
never exceeds `max(initial size, 1000)` entries. -/
theorem shouldProcessEvent_bounded (channelIds : List String) (botUserId : String)
    (processed : List String) (ev : MsgEvent) :
    (shouldProcessEvent channelIds botUserId processed ev).2.length ≤
      max processed.length 1000 := by
  unfold shouldProcessEvent
  rcases ev.channel with _ | ch
  · simp
  · dsimp only
    by_cases hc : ch ∉ channelIds
    · rw [if_pos hc]
      simp
    · rw [if_neg hc]
      by_cases hu : ev.user = some botUserId
      · rw [if_pos hu]
        simp
      · rw [if_neg hu]
        rcases pyOrStr ev.clientMsgId ev.eventTs with _ | eid
        · simp
        · dsimp only
          by_cases he : eid = ""
          · rw [if_pos he]
            simp
          · rw [if_neg he]
            by_cases hm : eid ∈ processed
            · rw [if_pos hm]
              simp
            · rw [if_neg hm]
              dsimp only
              by_cases hbig : (processed ++ [eid]).length > 1000
              · rw [if_pos hbig]
                have hl : (lastN 500 (processed ++ [eid])).length =
                    (processed ++ [eid]).length - ((processed ++ [eid]).length - 500) := by
                  simp [lastN]
                simp only [hl, List.length_append, List.length_cons, List.length_nil]
                omega
              · rw [if_neg hbig]
                simp only [List.length_append, List.length_cons, List.length_nil] at hbig ⊢
                omega

/-- C5: the thread-reply timestamp for a `file_shared` event is resolved
as: the first public share's `ts` for the event's channel if there is a
(nonempty) public share entry; otherwise the first private share's `ts` if
there is one; otherwise the event's own `event_ts`. -/
theorem C5_thread_ts_resolution (fd : FileData) (ch : String) (evTs : Option String) :
    (∀ e rest, sharesGet fd.shares.pub ch = some (e :: rest) →
        resolveThreadTs fd ch evTs = e.ts) ∧
      (∀ e rest, listTruthy (sharesGet fd.shares.pub ch) = false →
        sharesGet fd.shares.priv ch = some (e :: rest) →
        resolveThreadTs fd ch evTs = e.ts) ∧
      (listTruthy (sharesGet fd.shares.pub ch) = false →
        listTruthy (sharesGet fd.shares.priv ch) = false →
        resolveThreadTs fd ch evTs = evTs) := by
  refine ⟨?_, ?_, ?_⟩
  · intro e rest hpub
    simp [resolveThreadTs, pyOrShares, hpub, listTruthy]
  · intro e rest hpub hpriv
    simp [resolveThreadTs, pyOrShares, hpub, hpriv]
  · intro hpub hpriv
    unfold resolveThreadTs pyOrShares
    rw [hpub]
    simp only [Bool.false_eq_true, if_false]
    rcases hp : sharesGet fd.shares.priv ch with _ | l
    · simp
    · rcases l with _ | ⟨e, rest⟩
      · simp
      · rw [hp] at hpriv
        simp [listTruthy] at hpriv

/-- C5 witness at concrete share tables: a public share wins, a private
share is used when the public table lacks the channel, and the event's own
timestamp is the fallback when there is no share data at all. -/
theorem C5_thread_ts_resolution_witness :
    resolveThreadTs
        ⟨some "pdf", some "p.pdf", none,
          ⟨[("C", [⟨some "11.22"⟩])], [("C", [⟨some "33.44"⟩])]⟩⟩ "C" (some "55.66") =
      some "11.22" ∧
    resolveThreadTs ⟨some "pdf", some "p.pdf", none, ⟨[], [("C", [⟨some "33.44"⟩])]⟩⟩
        "C" (some "55.66") = some "33.44" ∧
    resolveThreadTs ⟨some "pdf", some "p.pdf", none, ⟨[], []⟩⟩ "C" (some "55.66") =
      some "55.66" := by
  refine ⟨?_, ?_, ?_⟩
  · exact (C5_thread_ts_resolution _ "C" (some "55.66")).1 ⟨some "11.22"⟩ [] (by decide)
  · exact (C5_thread_ts_resolution _ "C" (some "55.66")).2.1 ⟨some "33.44"⟩ []
      (by decide) (by decide)
  · exact (C5_thread_ts_resolution _ "C" (some "55.66")).2.2 (by decide) (by decide)

/-- C9: on the `file_shared` webhook path the `file_id` is recorded before
the metadata lookup; if the lookup (or any later step inside the `try`)
raises, the branch still answers 200, queues nothing, and keeps the
`file_id` recorded — so any redelivery of the event is discarded as a
duplicate (answering 200, queueing nothing, leaving the set unchanged). -/
theorem C9_dedup_recorded_before_lookup (cids processed : List String) (fid ch : String)
    (evTs stTs : Option String) (err : String) :
    ch ∈ cids → fid ∉ processed →
      (fileSharedBranch cids processed fid (some ch) evTs (.error err) false stTs =
          ⟨200, processed ++ [fid], []⟩) ∧
        (∀ res2 lat2 st2,
          fileSharedBranch cids (processed ++ [fid]) fid (some ch) evTs res2 lat2 st2 =
            ⟨200, processed ++ [fid], []⟩) ∧
        (∀ fd, fileSharedBranch cids processed fid (some ch) evTs (.ok fd) true stTs =
          ⟨200, processed ++ [fid], []⟩) := by
  intro hch hfresh
  refine ⟨?_, ?_, ?_⟩
  · simp [fileSharedBranch, hch, hfresh]
  · intro res2 lat2 st2
    simp [fileSharedBranch, hch]
  · intro fd
    by_cases hpdf : isPdfFile fd <;> simp [fileSharedBranch, hch, hfresh, hpdf]

/-- C9 witness: a monitored channel, a fresh file id, a failing
`files_info` call. -/
theorem C9_dedup_recorded_before_lookup_witness :
    (fileSharedBranch ["C"] [] "F1" (some "C") none (.error "boom") false none =
        ⟨200, ["F1"], []⟩) ∧
      (fileSharedBranch ["C"] ["F1"] "F1" (some "C") none (.error "boom") false none =
        ⟨200, ["F1"], []⟩) := by
  have h := C9_dedup_recorded_before_lookup ["C"] [] "F1" "C" none none "boom"
    (by decide) (by decide)
  exact ⟨h.1, h.2.1 (.error "boom") false none⟩

/-- C10: `verify_request` decodes the body outside the `try` block, so a
body that is not valid UTF-8 together with a timestamp inside the replay
window makes it raise a `UnicodeDecodeError` instead of returning `False`. -/
theorem C10_verify_raises_on_invalid_utf8 (secret : List Nat) (now : Int)
    (ts body sig : List Nat) (n : Int) :
    pythonIntBytes ts = some n → (now - n).natAbs ≤ 300 → utf8Decode body = none →
      verifyRequest secret now ts body sig = .error .unicodeDecodeError := by
  intro hparse hwin hdec
  simp [verifyRequest, hparse, hdec, Nat.not_lt.mpr hwin]

/-- C10 witness: body `[0xFF]` is not UTF-8; timestamp header `"0"` parses
and is inside the window at time 0. -/
theorem C10_verify_raises_on_invalid_utf8_witness :
    pythonIntBytes [48] = some 0 ∧ utf8Decode [255] = none ∧
      verifyRequest [107] 0 [48] [255] [] = .error .unicodeDecodeError := by
  refine ⟨by decide, by decide, ?_⟩
  exact C10_verify_raises_on_invalid_utf8 [107] 0 [48] [255] [] 0 (by decide) (by decide)
    (by decide)

/-- C7: `post_thread_reply` retries up to `max_retries` attempts with
backoff `retry_delay * attempt` seconds between attempts on transient API
errors; it raises `SlackError` (`cannotPost`) immediately, with no further
retries, when the error is `channel_not_found` or `not_in_channel`; after
exhausting all attempts it raises `SlackError` referencing the last error;
and `add_reaction` treats an `already_reacted` API error as success. -/
theorem C7_post_retry_policy (maxR delay : Nat) (api : Nat → ApiCall) :
    (1 ≤ maxR → (∀ i, 1 ≤ i → i ≤ maxR → isTransientCall (api i) = true) →
      postThreadReply maxR delay api =
        (.error (.failedAfter maxR (some (callCode (api maxR)))),
          (List.range (maxR - 1)).map (fun k => delay * (1 + k)))) ∧
    (∀ a, 1 ≤ a → a ≤ maxR → (∀ i, 1 ≤ i → i < a → isTransientCall (api i) = true) →
      isPermanentCall (api a) = true →
      postThreadReply maxR delay api =
        (.error (.cannotPost (callCode (api a))),
          (List.range (a - 1)).map (fun k => delay * (1 + k)))) ∧
    addReaction (.apiErr "already_reacted") = true := by
  refine ⟨?_, ?_, rfl⟩
  · intro h1 htrans
    rw [postThreadReply,
      postGo_all_transient maxR delay api maxR 1 none [] (by omega) le_rfl h1 htrans,
      List.nil_append]
  · intro a h1 hle htrans hperm
    rw [postThreadReply,
      postGo_permanent maxR delay api maxR 1 none [] a (by omega) le_rfl h1 hle htrans hperm,
      List.nil_append]

/-- C7 witness: three transient failures exhaust the retries with sleeps
2·1 and 2·2; a permanent `channel_not_found` on attempt 2 stops at once. -/
theorem C7_post_retry_policy_witness :
    postThreadReply 3 2 (fun _ => .apiErr "rate_limited") =
      (.error (.failedAfter 3 (some "rate_limited")),
        (List.range 2).map (fun k => 2 * (1 + k))) ∧
    postThreadReply 3 2
        (fun i => if i = 2 then .apiErr "channel_not_found" else .apiErr "rate_limited") =
      (.error (.cannotPost "channel_not_found"),
        (List.range 1).map (fun k => 2 * (1 + k))) := by
  constructor
  · exact (C7_post_retry_policy 3 2 _).1 (by omega) (fun i _ _ => rfl)
  · exact (C7_post_retry_policy 3 2 _).2.1 2 (by omega) (by omega)
      (fun i h1 h2 => by
        have h3 : i = 1 := by omega
        subst h3
        decide)
      (by decide)

/-- C6: on a cache miss, `summarize` attempts the generation API up to
`max_retries` times, sleeping `retry_delay * attempt` seconds between
consecutive attempts, retrying on any exception and on an empty response;
exhausting all attempts raises `SummaryError` carrying the last underlying
error; and it returns normally only when some attempt yields a non-empty
response. -/
theorem C6_retry_exhaustion (st : SummState) (text : String)
    (api : Nat → String → GenAttempt) :
    (∀ c, loadFromCache st (textHash text) = some c → c = "") →
    ((1 ≤ st.maxRetries →
        (∀ i, 1 ≤ i → i ≤ st.maxRetries →
          genFails (api i (sentPrompt st.detailLevel text)) = true) →
        summarize st text api =
          (.error (.failedAfter st.maxRetries
              (some (genFailMsg (api st.maxRetries (sentPrompt st.detailLevel text))))),
            st, st.maxRetries,
            (List.range (st.maxRetries - 1)).map (fun k => st.retryDelay * (1 + k)))) ∧
      (∀ s st1 c1 sl1, summarize st text api = (.ok s, st1, c1, sl1) →
        ∃ i t, 1 ≤ i ∧ i ≤ st.maxRetries ∧
          api i (sentPrompt st.detailLevel text) = .resp t ∧ t ≠ "" ∧ s = pyStrip t)) := by
  intro hmiss
  have hgen : summarize st text api = summarizeGen st (textHash text) text api := by
    cases hload : loadFromCache st (textHash text) with
    | none => rw [summarize, hload]
    | some c =>
      rw [summarize, hload]
      dsimp only
      rw [if_pos (hmiss c hload)]
  constructor
  · intro h1 hfail
    rw [hgen, summarizeGen,
      genGo_all_fail st (textHash text) (sentPrompt st.detailLevel text) api st.maxRetries 1
        none 0 [] (by omega) le_rfl h1 hfail,
      List.nil_append, Nat.zero_add]
  · intro s st1 c1 sl1 hok
    rw [hgen, summarizeGen] at hok
    obtain ⟨hst, i, t, hi1, hi2, hresp, hne, hs⟩ :=
      genGo_ok st (textHash text) (sentPrompt st.detailLevel text) api st.maxRetries 1 none 0 []
        s st1 c1 sl1 hok
    exact ⟨i, t, hi1, by omega, hresp, hne, hs⟩

/-- C6 witness: with caching disabled and an API that raises `"quota"` on
every attempt, `summarize` makes 3 attempts, sleeps 2·1 and 2·2 seconds,
and raises `SummaryError` carrying `"quota"`. -/
theorem C6_retry_exhaustion_witness :
    summarize ⟨"normal", 3, 2, false, []⟩ "t" (fun _ _ => .raiseE "quota") =
      (.error (.failedAfter 3 (some "quota")), ⟨"normal", 3, 2, false, []⟩, 3,
        (List.range 2).map (fun k => 2 * (1 + k))) := by
  exact (C6_retry_exhaustion ⟨"normal", 3, 2, false, []⟩ "t" (fun _ _ => .raiseE "quota")
    (fun c hc => by simp [loadFromCache] at hc)).1 (by decide) (fun i _ _ => rfl)

/-- C4: with caching enabled, if a first `summarize` call returns a
non-empty summary, a second call with the identical text returns the very
same string with zero API calls and an unchanged state (the cache, keyed
by `sha256(text)` and the detail level, is probed first); moreover a first
call whose first attempt succeeds makes exactly one API call, so the two
calls together invoke the API at most once. -/
theorem C4_cache_round_trip (st : SummState) (text : String)
    (api1 api2 : Nat → String → GenAttempt) :
    st.cacheEnabled = true →
    ((∀ s st1 c1 sl1, summarize st text api1 = (.ok s, st1, c1, sl1) → s ≠ "" →
        summarize st1 text api2 = (.ok s, st1, 0, [])) ∧
      (∀ t, 1 ≤ st.maxRetries → api1 1 (sentPrompt st.detailLevel text) = .resp t → t ≠ "" →
        loadFromCache st (textHash text) = none →
        summarize st text api1 =
          (.ok (pyStrip t), saveToCache st (textHash text) (pyStrip t), 1, []))) := by
  intro hen
  have hsecond : ∀ s st1 c1 sl1,
      summarizeGen st (textHash text) text api1 = (.ok s, st1, c1, sl1) → s ≠ "" →
      summarize st1 text api2 = (.ok s, st1, 0, []) := by
    intro s st1 c1 sl1 h1 hs
    rw [summarizeGen] at h1
    obtain ⟨hst, -, -, -, -, -, -, -⟩ :=
      genGo_ok st (textHash text) (sentPrompt st.detailLevel text) api1 st.maxRetries 1 none 0 []
        s st1 c1 sl1 h1
    subst hst
    have hload2 :
        loadFromCache (saveToCache st (textHash text) s) (textHash text) = some s := by
      rw [saveToCache, if_pos hen, loadFromCache]
      simp [hen, cacheLookup, List.find?]
    rw [summarize, hload2]
    dsimp only
    rw [if_neg hs]
  constructor
  · intro s st1 c1 sl1 h1 hs
    cases hload : loadFromCache st (textHash text) with
    | none =>
      rw [summarize, hload] at h1
      exact hsecond s st1 c1 sl1 h1 hs
    | some c =>
      by_cases hc : c = ""
      · rw [summarize, hload] at h1
        dsimp only at h1
        rw [if_pos hc] at h1
        exact hsecond s st1 c1 sl1 h1 hs
      · rw [summarize, hload] at h1
        dsimp only at h1
        rw [if_neg hc] at h1
        simp only [Prod.mk.injEq, Except.ok.injEq] at h1
        obtain ⟨rfl, rfl, -, -⟩ := h1
        rw [summarize, hload]
        dsimp only
        rw [if_neg hs]
  · intro t h1 hapi ht hload
    rw [summarize, hload, summarizeGen]
    obtain ⟨m, hm⟩ : ∃ m, st.maxRetries = m + 1 := ⟨st.maxRetries - 1, by omega⟩
    rw [hm]
    simp only [genGo, hapi, if_neg ht, Nat.zero_add]

/-- C4 witness: an empty cache, a first call whose first attempt returns
`"hello"`, and a second call whose API would raise — the second call
returns the cached `"hello"` with zero API calls. -/
theorem C4_cache_round_trip_witness :
    summarize ⟨"normal", 3, 2, true, []⟩ "t" (fun _ _ => .resp "hello") =
      (.ok "hello", saveToCache ⟨"normal", 3, 2, true, []⟩ (textHash "t") "hello", 1, []) ∧
    summarize (saveToCache ⟨"normal", 3, 2, true, []⟩ (textHash "t") "hello") "t"
        (fun _ _ => .raiseE "never") =
      (.ok "hello", saveToCache ⟨"normal", 3, 2, true, []⟩ (textHash "t") "hello", 0, []) := by
  have hc := C4_cache_round_trip ⟨"normal", 3, 2, true, []⟩ "t" (fun _ _ => .resp "hello")
    (fun _ _ => .raiseE "never") rfl
  have hb := hc.2 "hello" (by decide) rfl (by decide) rfl
  have ha := hc.1 "hello" (saveToCache ⟨"normal", 3, 2, true, []⟩ (textHash "t") "hello") 1 []
    hb (by decide)
  exact ⟨hb, ha⟩

set_option maxRecDepth 40000 in
theorem templateLen_le (d : String) : templateLen d ≤ 1773 := by
  have hsuf : promptSuf d = "\n" := rfl
  rw [templateLen, promptPre, hsuf]
  by_cases h1 : d = "short"
  · rw [if_pos h1]; decide
  · rw [if_neg h1]
    by_cases h2 : d = "detailed"
    · rw [if_pos h2]; decide
    · rw [if_neg h2]; decide

theorem templateLen_eq (d : String) : templateLen d = (promptPre d).length + 7 := rfl

theorem builtPrompt_length (d t : String) :
    (builtPrompt d t).length = (promptPre d).length + t.length + 1 := by
  rw [builtPrompt, String.length_append, String.length_append]
  rfl

/-- C8: the prompt actually sent never exceeds the 900000-character
budget; when the interpolated prompt fits the budget it is sent
untruncated, and when it overflows, only the appended text is truncated —
the sent prompt is the same template interpolated with a prefix
(`text[:900000 - len(template)]`) of the original text. -/
theorem C8_prompt_truncation (d text : String) :
    (sentPrompt d text).length ≤ 900000 ∧
      sentPrompt d text =
        (if (builtPrompt d text).length ≤ 900000 then builtPrompt d text
          else builtPrompt d ⟨text.data.take (900000 - templateLen d)⟩) := by
  have htl := templateLen_le d
  have htpl := templateLen_eq d
  have hk : ((900000 : Int) - (templateLen d : Int)).toNat = 900000 - templateLen d := by
    omega
  have h0k : (0 : Int) ≤ (900000 : Int) - (templateLen d : Int) := by omega
  have hslice : pySliceTo text ((900000 : Int) - (templateLen d : Int)) =
      ⟨text.data.take (900000 - templateLen d)⟩ := by
    rw [pySliceTo, if_pos h0k, hk]
  constructor
  · rw [sentPrompt]
    by_cases hover : (builtPrompt d text).length > 900000
    · rw [if_pos hover, hslice]
      rw [builtPrompt_length] at hover ⊢
      have hlt : (⟨List.take (900000 - templateLen d) text.data⟩ : String).length =
          min (900000 - templateLen d) text.length := by
        rw [string_length_eq_data]
        dsimp only
        rw [List.length_take, ← string_length_eq_data]
      rw [hlt]
      omega
    · rw [if_neg hover]
      omega
  · rw [sentPrompt]
    by_cases hover : (builtPrompt d text).length > 900000
    · rw [if_pos hover, if_neg (by omega), hslice]
    · rw [if_neg hover, if_pos (by omega)]

theorem utf8EncodeCp_cons (c : Nat) (cs : List Nat) :
    utf8EncodeCp (c :: cs) = utf8EncodeChar c ++ utf8EncodeCp cs := rfl

theorem encode2 (b b1 : Nat) (hb : 0xC2 ≤ b ∧ b ≤ 0xDF) (hb1 : 0x80 ≤ b1 ∧ b1 ≤ 0xBF) :
    utf8EncodeChar ((b - 0xC0) * 64 + (b1 - 0x80)) = [b, b1] := by
  rw [utf8EncodeChar, if_neg (by omega), if_pos (by omega)]
  simp only [List.cons.injEq, and_true]
  omega

theorem encode3 (b b1 b2 : Nat) (hb : 0xE0 ≤ b ∧ b ≤ 0xEF) (hb1 : 0x80 ≤ b1 ∧ b1 ≤ 0xBF)
    (hb2 : 0x80 ≤ b2 ∧ b2 ≤ 0xBF)
    (hmin : 0x800 ≤ (b - 0xE0) * 4096 + (b1 - 0x80) * 64 + (b2 - 0x80)) :
    utf8EncodeChar ((b - 0xE0) * 4096 + (b1 - 0x80) * 64 + (b2 - 0x80)) = [b, b1, b2] := by
  rw [utf8EncodeChar, if_neg (by omega), if_neg (by omega), if_pos (by omega)]
  simp only [List.cons.injEq, and_true]
  omega

theorem encode4 (b b1 b2 b3 : Nat) (hb : 0xF0 ≤ b ∧ b ≤ 0xF4) (hb1 : 0x80 ≤ b1 ∧ b1 ≤ 0xBF)
    (hb2 : 0x80 ≤ b2 ∧ b2 ≤ 0xBF) (hb3 : 0x80 ≤ b3 ∧ b3 ≤ 0xBF)
    (hmin : 0x10000 ≤ (b - 0xF0) * 262144 + (b1 - 0x80) * 4096 + (b2 - 0x80) * 64 + (b3 - 0x80)) :
    utf8EncodeChar ((b - 0xF0) * 262144 + (b1 - 0x80) * 4096 + (b2 - 0x80) * 64 + (b3 - 0x80)) =
      [b, b1, b2, b3] := by
  rw [utf8EncodeChar, if_neg (by omega), if_neg (by omega), if_neg (by omega)]
  simp only [List.cons.injEq, and_true]
  omega

theorem utf8DecodeAux_reencode :
    ∀ (fuel : Nat) (bs cps : List Nat), utf8DecodeAux fuel bs = some cps →
      utf8EncodeCp cps = bs := by
  intro fuel
  induction fuel with
  | zero =>
    intro bs cps h
    cases bs with
    | nil =>
      simp only [utf8DecodeAux, Option.some.injEq] at h
      subst h
      rfl
    | cons b rest => simp [utf8DecodeAux] at h
  | succ n ih =>
    intro bs cps h
    cases bs with
    | nil =>
      simp only [utf8DecodeAux, Option.some.injEq] at h
      subst h
      rfl
    | cons b rest =>
      simp only [utf8DecodeAux] at h
      by_cases h1 : b < 0x80
      · rw [if_pos h1] at h
        obtain ⟨cs, hcs, rfl⟩ := Option.map_eq_some'.mp h
        rw [utf8EncodeCp_cons, ih rest cs hcs, utf8EncodeChar, if_pos h1]
        rfl
      · rw [if_neg h1] at h
        by_cases h2 : 0xC2 ≤ b ∧ b ≤ 0xDF
        · rw [if_pos h2] at h
          cases rest with
          | nil => simp at h
          | cons b1 rest1 =>
            dsimp only at h
            by_cases h3 : 0x80 ≤ b1 ∧ b1 ≤ 0xBF
            · rw [if_pos h3] at h
              obtain ⟨cs, hcs, rfl⟩ := Option.map_eq_some'.mp h
              rw [utf8EncodeCp_cons, ih rest1 cs hcs, encode2 b b1 h2 h3]
              rfl
            · rw [if_neg h3] at h
              exact Option.noConfusion h
        · rw [if_neg h2] at h
          by_cases h4 : 0xE0 ≤ b ∧ b ≤ 0xEF
          · rw [if_pos h4] at h
            cases rest with
            | nil => simp at h
            | cons b1 rest1 =>
              cases rest1 with
              | nil => simp at h
              | cons b2 rest2 =>
                dsimp only at h
                by_cases h5 : ((if b = 0xE0 then 0xA0 else 0x80) ≤ b1 ∧
                    b1 ≤ (if b = 0xED then 0x9F else 0xBF)) ∧ (0x80 ≤ b2 ∧ b2 ≤ 0xBF)
                · rw [if_pos h5] at h
                  obtain ⟨cs, hcs, rfl⟩ := Option.map_eq_some'.mp h
                  obtain ⟨⟨h5a, h5b⟩, h5c⟩ := h5
                  have hb1 : 0x80 ≤ b1 ∧ b1 ≤ 0xBF := by
                    constructor
                    · refine le_trans ?_ h5a
                      split <;> omega
                    · refine le_trans h5b ?_
                      split <;> omega
                  have hmin : 0x800 ≤ (b - 0xE0) * 4096 + (b1 - 0x80) * 64 + (b2 - 0x80) := by
                    by_cases hbe : b = 0xE0
                    · rw [if_pos hbe] at h5a
                      subst hbe
                      omega
                    · have hb1ge : 0xE1 ≤ b := by omega
                      omega
                  rw [utf8EncodeCp_cons, ih rest2 cs hcs, encode3 b b1 b2 h4 hb1 h5c hmin]
                  rfl
                · rw [if_neg h5] at h
                  exact Option.noConfusion h
          · rw [if_neg h4] at h
            by_cases h6 : 0xF0 ≤ b ∧ b ≤ 0xF4
            · rw [if_pos h6] at h
              cases rest with
              | nil => simp at h
              | cons b1 rest1 =>
                cases rest1 with
                | nil => simp at h
                | cons b2 rest2 =>
                  cases rest2 with
                  | nil => simp at h
                  | cons b3 rest3 =>
                    dsimp only at h
                    by_cases h7 : ((if b = 0xF0 then 0x90 else 0x80) ≤ b1 ∧
                        b1 ≤ (if b = 0xF4 then 0x8F else 0xBF)) ∧
                        (0x80 ≤ b2 ∧ b2 ≤ 0xBF) ∧ (0x80 ≤ b3 ∧ b3 ≤ 0xBF)
                    · rw [if_pos h7] at h
                      obtain ⟨cs, hcs, rfl⟩ := Option.map_eq_some'.mp h
                      obtain ⟨⟨h7a, h7b⟩, h7c, h7d⟩ := h7
                      have hb1 : 0x80 ≤ b1 ∧ b1 ≤ 0xBF := by
                        constructor
                        · refine le_trans ?_ h7a
                          split <;> omega
                        · refine le_trans h7b ?_
                          split <;> omega
                      have hmin : 0x10000 ≤
                          (b - 0xF0) * 262144 + (b1 - 0x80) * 4096 + (b2 - 0x80) * 64 +
                            (b3 - 0x80) := by
                        by_cases hbf : b = 0xF0
                        · rw [if_pos hbf] at h7a
                          subst hbf
                          omega
                        · have : 0xF1 ≤ b := by omega
                          omega
                      rw [utf8EncodeCp_cons, ih rest3 cs hcs,
                        encode4 b b1 b2 b3 h6 hb1 h7c h7d hmin]
                      rfl
                    · rw [if_neg h7] at h
                      exact Option.noConfusion h
            · rw [if_neg h6] at h
              exact Option.noConfusion h

theorem utf8Decode_reencode (bs cps : List Nat) (h : utf8Decode bs = some cps) :
    utf8EncodeCp cps = bs := utf8DecodeAux_reencode bs.length bs cps h

theorem utf8Reencode_eq_self (bs : List Nat) (h : (utf8Decode bs).isSome = true) :
    utf8Reencode bs = bs := by
  cases hd : utf8Decode bs with
  | none => rw [hd] at h; simp at h
  | some cps => rw [utf8Reencode, hd]; exact utf8Decode_reencode bs cps hd

theorem verifyRequest_ok_true_iff (secret : List Nat) (now : Int) (ts body sig : List Nat) :
    verifyRequest secret now ts body sig = .ok true ↔
      (∃ n, pythonIntBytes ts = some n ∧ (now - n).natAbs ≤ 300) ∧
        (utf8Decode body).isSome = true ∧ sig = expectedSignature secret ts body := by
  cases hp : pythonIntBytes ts with
  | none =>
    rw [verifyRequest, hp]
    simp [hp]
  | some n =>
    rw [verifyRequest, hp]
    dsimp only
    by_cases hw : 300 < (now - n).natAbs
    · rw [if_pos hw]
      constructor
      · intro hcontra
        exact absurd hcontra (by simp)
      · rintro ⟨⟨n1, hn1, hle⟩, -, -⟩
        injection hn1 with hnn
        omega
    · rw [if_neg hw]
      cases hd : utf8Decode body with
      | none =>
        constructor
        · intro hcontra
          exact absurd hcontra (by simp)
        · rintro ⟨-, hsome, -⟩
          simp at hsome
      | some cps =>
        dsimp only
        constructor
        · intro hok
          have hsig : sig = expectedSignature secret ts body := by
            have := Except.ok.inj hok
            exact eq_of_beq this
          exact ⟨⟨n, rfl, by omega⟩, rfl, hsig⟩
        · rintro ⟨-, -, rfl⟩
          simp

/-- C1: `verify_request` returns `True` exactly when the timestamp header
parses as an integer within 300 seconds of the current time, the body
decodes as UTF-8, and the signature header equals `"v0="` followed by the
lowercase hex HMAC-SHA256 of `"v0:{timestamp}:{body}"` under the signing
secret.  In particular a timestamp more than 300 seconds away is rejected
even with the correct signature; and a body with one byte changed passes
verification against the old body's signature only in the event of an
HMAC-SHA256 collision: its basestring provably differs, so its hex digest
would have to coincide. -/
theorem C1_verify_request (secret : List Nat) (now : Int) (ts body sig : List Nat) :
    (verifyRequest secret now ts body sig = .ok true ↔
      (∃ n, pythonIntBytes ts = some n ∧ (now - n).natAbs ≤ 300) ∧
        (utf8Decode body).isSome = true ∧ sig = expectedSignature secret ts body) ∧
    (∀ n, pythonIntBytes ts = some n → 300 < (now - n).natAbs →
      verifyRequest secret now ts body (expectedSignature secret ts body) = .ok false) ∧
    (∀ pre post (x y : Nat) sig2, x ≠ y →
      verifyRequest secret now ts (pre ++ x :: post) sig2 = .ok true →
      ((expectedSignature secret ts (pre ++ y :: post) ≠
          expectedSignature secret ts (pre ++ x :: post)) →
        verifyRequest secret now ts (pre ++ y :: post) sig2 ≠ .ok true) ∧
      (verifyRequest secret now ts (pre ++ y :: post) sig2 = .ok true →
        sigBaseBytes ts (pre ++ y :: post) ≠ sigBaseBytes ts (pre ++ x :: post) ∧
          hexBytes (hmacSha256 secret (sigBaseBytes ts (pre ++ y :: post))) =
            hexBytes (hmacSha256 secret (sigBaseBytes ts (pre ++ x :: post))))) := by
  refine ⟨verifyRequest_ok_true_iff secret now ts body sig, ?_, ?_⟩
  · intro n hp hw
    rw [verifyRequest, hp]
    dsimp only
    rw [if_pos hw]
  · intro pre post x y sig2 hxy hvx
    have hX := (verifyRequest_ok_true_iff secret now ts (pre ++ x :: post) sig2).mp hvx
    constructor
    · intro hne hvy
      have hY := (verifyRequest_ok_true_iff secret now ts (pre ++ y :: post) sig2).mp hvy
      exact hne (hY.2.2 ▸ hX.2.2)
    · intro hvy
      have hY := (verifyRequest_ok_true_iff secret now ts (pre ++ y :: post) sig2).mp hvy
      have hsig : expectedSignature secret ts (pre ++ y :: post) =
          expectedSignature secret ts (pre ++ x :: post) := hY.2.2 ▸ hX.2.2
      have hrX := utf8Reencode_eq_self (pre ++ x :: post) hX.2.1
      have hrY := utf8Reencode_eq_self (pre ++ y :: post) hY.2.1
      constructor
      · intro hbase
        rw [sigBaseBytes, sigBaseBytes, hrX, hrY] at hbase
        have hb2 := List.append_cancel_left hbase
        have hb3 := List.append_cancel_left hb2
        injection hb3 with hxy2 _
        exact hxy hxy2.symm
      · have := List.append_cancel_left hsig
        rw [expectedSignature, expectedSignature] at hsig
        exact List.append_cancel_left hsig

set_option maxRecDepth 1000000 in
/-- C1 witness: with secret `"k"`, timestamp header `"0"`, body `"a"` and
the correctly computed signature, verification succeeds at time 0; at time
1000 (timestamp 1000 seconds away) the same correct signature is rejected;
and flipping the body byte to `"b"` invalidates the old signature (the two
hex HMACs are computed and differ). -/
theorem C1_verify_request_witness :
    verifyRequest [107] 0 [48] [97] (expectedSignature [107] [48] [97]) = .ok true ∧
      verifyRequest [107] 1000 [48] [97] (expectedSignature [107] [48] [97]) = .ok false ∧
      verifyRequest [107] 0 [48] [98] (expectedSignature [107] [48] [97]) ≠ .ok true := by
  have h1 : verifyRequest [107] 0 [48] [97] (expectedSignature [107] [48] [97]) = .ok true :=
    (C1_verify_request [107] 0 [48] [97] (expectedSignature [107] [48] [97])).1.mpr
      ⟨⟨0, by decide, by decide⟩, by decide, rfl⟩
  refine ⟨h1, ?_, ?_⟩
  · exact (C1_verify_request [107] 1000 [48] [97]
      (expectedSignature [107] [48] [97])).2.1 0 (by decide) (by decide)
  · exact ((C1_verify_request [107] 0 [48] [97]
      (expectedSignature [107] [48] [97])).2.2 [] [] 97 98
      (expectedSignature [107] [48] [97]) (by decide) h1).1 (by decide)

end PaperBot
